import Mathlib

/-!
Verification development for the schema-driven casting engine of
glyphs2ufo (Lib/glyphs2ufo/casting.py).

The Python runtime values that occur in a parsed glyphs file are shallowly
embedded as the inductive type Value below; dictionaries are insertion
ordered association lists.  Every converter of casting.py becomes a Lean
function from Value to Option Value: a Python exception (ValueError,
AssertionError, AttributeError, KeyError, TypeError) is modelled as none.
-/

namespace Glyphs

/-- Calendar date-time as produced by datetime.strptime, timezone-free. -/
structure PyDatetime where
  year : Nat
  month : Nat
  day : Nat
  hour : Nat
  minute : Nat
  second : Nat
deriving DecidableEq

/-- Python runtime values occurring in glyphs data: strings, ints, floats
(idealised as rationals), booleans, None, datetimes, lists, and dicts
(insertion-ordered association lists). -/
inductive Value where
  | vstr : String → Value
  | vint : Int → Value
  | vfloat : Rat → Value
  | vbool : Bool → Value
  | vnone : Value
  | vdatetime : PyDatetime → Value
  | vlist : List Value → Value
  | vdict : List (String × Value) → Value

/-- A Python dict with string keys, as an insertion-ordered association list. -/
abbrev Dict := List (String × Value)

/-- Dictionary read, data[key]: first binding of the key, none when absent. -/
def lookupD : Dict → String → Option Value
  | [], _ => none
  | (k, v) :: rest, key => if k = key then some v else lookupD rest key

/-- Dictionary write, data[key] = v: replace the binding when the key is
present, append it otherwise (Python dict assignment). -/
def setKeyD : Dict → String → Value → Dict
  | [], key, v => [(key, v)]
  | (k, w) :: rest, key, v =>
      if k = key then (key, v) :: rest else (k, w) :: setKeyD rest key v

/-- Eager elementwise traversal: Python 2 map over a list, where a failing
element aborts the whole list. -/
def mapOpt (f : α → Option β) : List α → Option (List β)
  | [] => some []
  | a :: as =>
      match f a with
      | some b => (mapOpt f as).map (b :: ·)
      | none => none

/-! ### Numeric string parsing (Python int() and float() on the inputs
occurring in glyphs data) -/

/-- Numeric value of a digit list, most significant first. -/
def digitsVal (cs : List Char) : Nat :=
  cs.foldl (fun a c => a * 10 + (c.toNat - 48)) 0

/-- All-digit check plus value: Python int-literal body. -/
def digitsToNat (cs : List Char) : Option Nat :=
  if cs ≠ [] ∧ cs.all Char.isDigit then some (digitsVal cs) else none

/-- Python int(string): optional sign followed by a nonempty digit run. -/
def parseIntStr (s : String) : Option Int :=
  match s.toList with
  | '-' :: cs => (digitsToNat cs).map (fun n => -(n : Int))
  | '+' :: cs => (digitsToNat cs).map (fun n => (n : Int))
  | cs => (digitsToNat cs).map (fun n => (n : Int))

/-- Exponent suffix of a float literal: optional sign and nonempty digits. -/
def parseExpTail (cs : List Char) : Option Int :=
  match cs with
  | '-' :: r => (digitsToNat r).map (fun n => -(n : Int))
  | '+' :: r => (digitsToNat r).map (fun n => (n : Int))
  | r => (digitsToNat r).map (fun n => (n : Int))

/-- Python float(string), idealised over the rationals: sign, integer part,
optional fractional part (at least one digit overall), optional exponent,
and nothing else. -/
def parseFloatStr (s : String) : Option Rat :=
  let (sgn, cs) :=
    match s.toList with
    | '-' :: r => (true, r)
    | '+' :: r => (false, r)
    | r => (false, r)
  let ip := cs.takeWhile Char.isDigit
  let r1 := cs.dropWhile Char.isDigit
  let (fp, r2) :=
    match r1 with
    | '.' :: r => (r.takeWhile Char.isDigit, r.dropWhile Char.isDigit)
    | _ => (([] : List Char), r1)
  if ip = [] ∧ fp = [] then none
  else
    let mkVal : Int → Rat := fun e =>
      let mant : Int := (digitsVal (ip ++ fp) : Int)
      let mant := if sgn then -mant else mant
      let e2 : Int := e - (fp.length : Int)
      if 0 ≤ e2 then mkRat (mant * 10 ^ e2.toNat) 1 else mkRat mant (10 ^ (-e2).toNat)
    match r2 with
    | [] => some (mkVal 0)
    | 'e' :: r => (parseExpTail r).map mkVal
    | 'E' :: r => (parseExpTail r).map mkVal
    | _ => none

/-- Truncation toward zero, Python int() on a float. -/
def ratTrunc (q : Rat) : Int := Int.tdiv q.num q.den

/-- Python int() applied to a runtime value (used by truthy, intlist,
kerning, descender_val and version_minor). -/
def intVal : Value → Option Int
  | .vstr s => parseIntStr s
  | .vint n => some n
  | .vbool b => some (if b then 1 else 0)
  | .vfloat q => some (ratTrunc q)
  | _ => none

/-- Python float() applied to a runtime value (used by num). -/
def floatVal : Value → Option Rat
  | .vstr s => parseFloatStr s
  | .vint n => some (n : Rat)
  | .vbool b => some (if b then 1 else 0)
  | .vfloat q => some q
  | _ => none

/-! ### Scalar converters of casting.py -/

/-- casting.py default: just return the value, never fails. -/
def default (v : Value) : Option Value := some v

/-- casting.py truthy: bool(int(string)). -/
def truthy (v : Value) : Option Value :=
  (intVal v).map (fun n => .vbool (n != 0))

/-- casting.py num: float(string), collapsed to an int when the value is
exactly integral (int_val if int_val == val else val). -/
def num (v : Value) : Option Value :=
  (floatVal v).map (fun q =>
    let int_val := ratTrunc q
    if (int_val : Rat) = q then .vint int_val else .vfloat q)

/-- num on a raw string, the form used inside vector and node. -/
def numStr (s : String) : Option Value := num (.vstr s)

/-- Hex digit test for Python int(string, 16). -/
def isHexDigit (c : Char) : Bool :=
  c.isDigit || ('a' ≤ c && c ≤ 'f') || ('A' ≤ c && c ≤ 'F')

/-- Hex digit value. -/
def hexDigitVal (c : Char) : Nat :=
  if c.isDigit then c.toNat - 48
  else if 'a' ≤ c && c ≤ 'f' then c.toNat - 87
  else c.toNat - 55

/-- Python int(string, 16): optional sign, optional 0x prefix, nonempty
hex digits. -/
def parseHexStr (s : String) : Option Int :=
  let (sgn, cs) :=
    match s.toList with
    | '-' :: r => (true, r)
    | '+' :: r => (false, r)
    | r => (false, r)
  let cs :=
    match cs with
    | '0' :: 'x' :: r => r
    | '0' :: 'X' :: r => r
    | r => r
  if cs ≠ [] ∧ cs.all isHexDigit then
    let n : Int := (cs.foldl (fun a c => a * 16 + hexDigitVal c) 0 : Nat)
    some (if sgn then -n else n)
  else none

/-- casting.py hex_int: int(string, 16). -/
def hex_int (v : Value) : Option Value :=
  match v with
  | .vstr s => (parseHexStr s).map .vint
  | _ => none

/-- Character class of the regex groups in vector and node: [-.e\d]. -/
def isNumChar (c : Char) : Bool :=
  c = '-' || c = '.' || c = 'e' || c.isDigit

/-- Groups 2..dimension of the vector regex: each preceded by a literal
comma and space, each a nonempty maximal run of [-.e\d] characters (the
class is disjoint from the delimiters, so greedy matching is maximal
munch). Returns the group texts and the unconsumed remainder. -/
def vecTail : Nat → List Char → Option (List String × List Char)
  | 0, cs => some ([], cs)
  | n + 1, ',' :: ' ' :: cs =>
      let g := cs.takeWhile isNumChar
      if g = [] then none
      else (vecTail n (cs.dropWhile isNumChar)).map
        (fun p => (String.mk g :: p.1, p.2))
  | _ + 1, _ => none

/-- casting.py vector: re.match of "{g, g, ..., g}" with dimension groups
(prefix match, so text after the closing brace is ignored), then num on
every group. -/
def vector (v : Value) (dimension : Nat) : Option Value :=
  match v with
  | .vstr s =>
      match s.toList with
      | '{' :: cs =>
          let g := cs.takeWhile isNumChar
          if g = [] then none
          else
            match vecTail (dimension - 1) (cs.dropWhile isNumChar) with
            | some (gs, '}' :: _) =>
                (mapOpt numStr (String.mk g :: gs)).map .vlist
            | _ => none
      | _ => none
  | _ => none

/-- casting.py point: vector of dimension 2. -/
def point (v : Value) : Option Value := vector v 2

/-- casting.py transform: vector of dimension 6. -/
def transform (v : Value) : Option Value := vector v 6

/-- The segment-type alternation (LINE|CURVE|OFFCURVE) of the node regex,
tried in alternation order; returns the tag and the unconsumed remainder.
No alternative is a prefix of another, so the order cannot matter. -/
def matchType (l : List Char) : Option (String × List Char) :=
  if "LINE".toList.isPrefixOf l then some ("LINE", l.drop 4)
  else if "CURVE".toList.isPrefixOf l then some ("CURVE", l.drop 5)
  else if "OFFCURVE".toList.isPrefixOf l then some ("OFFCURVE", l.drop 8)
  else none

/-- casting.py node on the raw string: re.match of
"([-.e\d]+) ([-.e\d]+) (LINE|CURVE|OFFCURVE)(?: (SMOOTH))?" (prefix
match), then [num(m[0]), num(m[1]), m[2], m[3]].  The group class is
disjoint from the space delimiter, so greedy matching is maximal munch. -/
def nodeStr (s : String) : Option Value :=
  let cs := s.toList
  let g1 := cs.takeWhile isNumChar
  if g1 = [] then none
  else
    match cs.dropWhile isNumChar with
    | a :: r2 =>
        if a = ' ' then
          let g2 := r2.takeWhile isNumChar
          if g2 = [] then none
          else
            match r2.dropWhile isNumChar with
            | b :: r4 =>
                if b = ' ' then
                  match matchType r4 with
                  | some (t, r5) =>
                      let smooth :=
                        if r5.take 7 = (" SMOOTH".toList) then Value.vstr "SMOOTH"
                        else Value.vnone
                      match numStr (String.mk g1), numStr (String.mk g2) with
                      | some n1, some n2 => some (.vlist [n1, n2, .vstr t, smooth])
                      | _, _ => none
                  | none => none
                else none
            | [] => none
        else none
    | [] => none

/-- casting.py node: defined on strings only (re.match needs a string). -/
def node (v : Value) : Option Value :=
  match v with
  | .vstr s => nodeStr s
  | _ => none

/-- casting.py intlist: map(int, strlist). -/
def intlist (v : Value) : Option Value :=
  match v with
  | .vlist l => (mapOpt (fun x => (intVal x).map Value.vint) l).map .vlist
  | _ => none

/-- casting.py pointlist: map(point, strlist). -/
def pointlist (v : Value) : Option Value :=
  match v with
  | .vlist l => (mapOpt point l).map .vlist
  | _ => none

/-- casting.py nodelist: map(node, strlist). -/
def nodelist (v : Value) : Option Value :=
  match v with
  | .vlist l => (mapOpt node l).map .vlist
  | _ => none

/-- Python string[:string.rfind(' ')]: the prefix before the last space;
when there is no space rfind gives -1 and the slice drops the last
character. -/
def beforeLastSpace (s : String) : String :=
  match (s.toList.reverse.dropWhile (fun c => c ≠ ' ')) with
  | [] => String.mk s.toList.dropLast
  | _ :: rest => String.mk rest.reverse

/-- Month lengths with the Gregorian leap-year rule, as validated by the
datetime constructor. -/
def daysInMonth (y m : Nat) : Nat :=
  if m = 2 then
    if y % 4 = 0 ∧ (y % 100 ≠ 0 ∨ y % 400 = 0) then 29 else 28
  else if m = 4 ∨ m = 6 ∨ m = 9 ∨ m = 11 then 30
  else 31

/-- One numeric field of strptime: a digit run whose length lies in
[lo, hi], its value, and the remainder. -/
def parseDigitsLen (lo hi : Nat) (cs : List Char) : Option (Nat × List Char) :=
  let ds := cs.takeWhile Char.isDigit
  if lo ≤ ds.length ∧ ds.length ≤ hi then
    some (digitsVal ds, cs.dropWhile Char.isDigit)
  else none

/-- datetime.strptime(s, "%Y-%m-%d %H:%M:%S"): full match with the
constructor's range checks. -/
def strptimeGlyphs (s : String) : Option PyDatetime :=
  match parseDigitsLen 4 4 s.toList with
  | some (y, '-' :: r1) =>
      match parseDigitsLen 1 2 r1 with
      | some (mo, '-' :: r2) =>
          match parseDigitsLen 1 2 r2 with
          | some (d, ' ' :: r3) =>
              match parseDigitsLen 1 2 r3 with
              | some (h, ':' :: r4) =>
                  match parseDigitsLen 1 2 r4 with
                  | some (mi, ':' :: r5) =>
                      match parseDigitsLen 1 2 r5 with
                      | some (sec, []) =>
                          if 1 ≤ y ∧ 1 ≤ mo ∧ mo ≤ 12 ∧ 1 ≤ d ∧
                              d ≤ daysInMonth y mo ∧ h ≤ 23 ∧ mi ≤ 59 ∧ sec ≤ 59
                          then some ⟨y, mo, d, h, mi, sec⟩
                          else none
                      | _ => none
                  | _ => none
              | _ => none
          | _ => none
      | _ => none
  | _ => none

/-- casting.py glyphs_datetime: strptime of the prefix before the last
space (the timezone token is discarded); a non-string input fails, since
string slicing is applied to it first. -/
def glyphs_datetime (v : Value) : Option Value :=
  match v with
  | .vstr s => (strptimeGlyphs (beforeLastSpace s)).map .vdatetime
  | _ => none

/-- Innermost loop of casting.py kerning: one right-glyph binding, its
value cast by int(). -/
def kerningRight (rp : String × Value) : Option (String × Value) :=
  (intVal rp.2).map (fun n => (rp.1, Value.vint n))

/-- Middle loop of casting.py kerning: one left-glyph binding, whose value
must be the right-glyph map. -/
def kerningLeft (lp : String × Value) : Option (String × Value) :=
  match lp.2 with
  | .vdict rights =>
      (mapOpt kerningRight rights).map (fun rs => (lp.1, Value.vdict rs))
  | _ => none

/-- Outer loop of casting.py kerning: one master binding, whose value must
be the left-glyph map. -/
def kerningMaster (mp : String × Value) : Option (String × Value) :=
  match mp.2 with
  | .vdict lefts =>
      (mapOpt kerningLeft lefts).map (fun ls => (mp.1, Value.vdict ls))
  | _ => none

/-- casting.py kerning: rebuild the three-level master → left glyph →
right glyph grid with every leaf cast by int(). -/
def kerning (v : Value) : Option Value :=
  match v with
  | .vdict masters => (mapOpt kerningMaster masters).map .vdict
  | _ => none

/-- casting.py descender_val: int(string) with assert num < 0. -/
def descender_val (v : Value) : Option Value :=
  match intVal v with
  | some n => if n < 0 then some (.vint n) else none
  | none => none

/-- casting.py version_minor: int(string) with
assert num >= 0 and num <= 999. -/
def version_minor (v : Value) : Option Value :=
  match intVal v with
  | some n => if 0 ≤ n ∧ n ≤ 999 then some (.vint n) else none
  | none => none

/-- casting.py feature_syntax: successive str.replace of the six escape
sequences by newline, tab, and straight quotes. -/
def feature_syntax (v : Value) : Option Value :=
  match v with
  | .vstr s =>
      some (.vstr ((((((s.replace "\\012" "\n").replace "\\011" "\t").replace
        "\\U2018" "\x27").replace "\\U2019" "\x27").replace
        "\\U201C" "\x22").replace "\\U201D" "\x22"))
  | _ => none

/-- Python str applied to a glyphs value.  Modelled on the value shapes
that occur at str-typed schema fields (str() itself never fails; the repr
of the remaining shapes is not modelled and is mapped to failure). -/
def pystr : Value → Option Value
  | .vstr s => some (.vstr s)
  | .vint n => some (.vstr (toString n))
  | .vbool b => some (.vstr (if b then "True" else "False"))
  | .vnone => some (.vstr "None")
  | _ => none

/-- Python int as a schema converter. -/
def pyint (v : Value) : Option Value := (intVal v).map .vint

/-- Python list applied to a glyphs value.  Modelled on lists (the
sequence shape that occurs at the one list-typed schema field). -/
def pylist : Value → Option Value
  | .vlist l => some (.vlist l)
  | _ => none

/-- Python dict applied to a glyphs value.  Modelled on dicts (the shape
that occurs at dict-typed schema fields). -/
def pydict : Value → Option Value
  | .vdict d => some (.vdict d)
  | _ => none

/-! ### Schema registry and the recursive caster -/

/-- A schema node: either a scalar converter or a sub-schema describing a
sequence of child records (the design-note tagged variant of the Python
duck typing, where type(cur_type) == dict selects the sub-schema case). -/
inductive SchemaNode where
  | conv : (Value → Option Value) → SchemaNode
  | sub : List (String × SchemaNode) → SchemaNode

/-- A sub-schema: a mapping from field name to schema node. -/
abbrev Schema := List (String × SchemaNode)

/-- casting.py DEFAULTS: fallback values injected for absent fields. -/
def DEFAULTS (key : String) : Option Value :=
  if key = "interpolationWeight" ∨ key = "interpolationWidth" ∨
      key = "widthValue" ∨ key = "weightValue"
  then some (.vint 100) else none

mutual

/-- One iteration of the cast_data loop, for field key with schema node
ct: an absent key receives its DEFAULTS entry when there is one (the
KeyError of a missing default is swallowed); a present key is either a
record sequence recursively cast against the sub-schema, or replaced by
the converter output. -/
def castStep (data : Dict) (key : String) (ct : SchemaNode) : Option Dict :=
  match lookupD data key with
  | none =>
      match DEFAULTS key with
      | some d => some (setKeyD data key d)
      | none => some data
  | some v =>
      match ct with
      | .sub s =>
          match v with
          | .vlist items =>
              (cast_list s items).map (fun items2 => setKeyD data key (.vlist items2))
          | _ => none
      | .conv f => (f v).map (fun v2 => setKeyD data key v2)
termination_by (sizeOf ct, sizeOf data)

/-- casting.py cast_data: fold the schema over the data dict, one field
per iteration. -/
def cast_data (data : Dict) : Schema → Option Dict
  | [] => some data
  | (key, ct) :: rest =>
      match castStep data key ct with
      | some data2 => cast_data data2 rest
      | none => none
termination_by sch => (sizeOf sch, sizeOf data)

/-- The record loop of cast_data for a sub-schema field: every element of
the sequence must be a record, recursively cast with the sub-schema. -/
def cast_list (s : Schema) : List Value → Option (List Value)
  | [] => some []
  | item :: more =>
      match item with
      | .vdict d =>
          match cast_data d s with
          | some d2 => (cast_list s more).map (Value.vdict d2 :: ·)
          | none => none
      | _ => none
termination_by items => (sizeOf s, sizeOf items)

end

/-- The customParameters sub-schema, shared by the top level, fontMaster
and instances. -/
def customParametersSchema : Schema :=
  [("name", .conv pystr), ("value", .conv default)]

/-- The fontMaster sub-schema of get_type_structure. -/
def fontMasterSchema : Schema :=
  [("alignmentZones", .conv pointlist),
   ("ascender", .conv pyint),
   ("capHeight", .conv pyint),
   ("customParameters", .sub customParametersSchema),
   ("descender", .conv descender_val),
   ("horizontalStems", .conv intlist),
   ("id", .conv pystr),
   ("userData", .conv pydict),
   ("verticalStems", .conv intlist),
   ("weight", .conv pystr),
   ("weightValue", .conv pyint),
   ("width", .conv pystr),
   ("widthValue", .conv pyint),
   ("xHeight", .conv pyint)]

/-- The layers sub-schema of the glyphs sub-schema. -/
def layersSchema : Schema :=
  [("anchors", .sub [("name", .conv pystr), ("position", .conv point)]),
   ("annotations", .conv default),
   ("associatedMasterId", .conv pystr),
   ("background", .conv default),
   ("components", .sub
     [("anchor", .conv pystr),
      ("disableAlignment", .conv truthy),
      ("locked", .conv truthy),
      ("name", .conv pystr),
      ("transform", .conv transform)]),
   ("guideLines", .conv default),
   ("hints", .conv default),
   ("layerId", .conv pystr),
   ("leftMetricsKey", .conv pystr),
   ("rightMetricsKey", .conv pystr),
   ("name", .conv pystr),
   ("paths", .sub [("closed", .conv truthy), ("nodes", .conv nodelist)]),
   ("width", .conv num)]

/-- The glyphs sub-schema of get_type_structure. -/
def glyphsSchema : Schema :=
  [("glyphname", .conv pystr),
   ("lastChange", .conv glyphs_datetime),
   ("layers", .sub layersSchema),
   ("leftKerningGroup", .conv pystr),
   ("leftMetricsKey", .conv pystr),
   ("rightKerningGroup", .conv pystr),
   ("rightMetricsKey", .conv pystr),
   ("unicode", .conv hex_int),
   ("widthMetricsKey", .conv pystr)]

/-- casting.py get_type_structure: the root schema of a glyphs document. -/
def get_type_structure : Schema :=
  [("DisplayStrings", .conv pylist),
   ("classes", .sub
     [("automatic", .conv truthy),
      ("code", .conv feature_syntax),
      ("name", .conv pystr)]),
   ("copyright", .conv pystr),
   ("customParameters", .sub customParametersSchema),
   ("date", .conv glyphs_datetime),
   ("designer", .conv pystr),
   ("designerURL", .conv pystr),
   ("disablesAutomaticAlignment", .conv truthy),
   ("disablesNiceNames", .conv truthy),
   ("familyName", .conv pystr),
   ("featurePrefixes", .sub
     [("code", .conv feature_syntax), ("name", .conv pystr)]),
   ("features", .sub
     [("automatic", .conv truthy),
      ("code", .conv feature_syntax),
      ("disabled", .conv truthy),
      ("name", .conv pystr),
      ("notes", .conv feature_syntax)]),
   ("fontMaster", .sub fontMasterSchema),
   ("glyphs", .sub glyphsSchema),
   ("instances", .sub
     [("customParameters", .sub customParametersSchema),
      ("interpolationWeight", .conv pyint),
      ("interpolationWidth", .conv pyint),
      ("name", .conv pystr),
      ("weightClass", .conv pystr),
      ("widthClass", .conv pystr)]),
   ("kerning", .conv kerning),
   ("manufacturer", .conv pystr),
   ("manufacturerURL", .conv pystr),
   ("unitsPerEm", .conv pyint),
   ("userData", .conv pydict),
   ("versionMajor", .conv pyint),
   ("versionMinor", .conv version_minor)]

/-! ### Custom-data caster -/

/-- One customParameters entry of cast_custom_data: an entry whose name
is the string "openTypeOS2Type" has its value (a sequence of strings)
replaced by map(int, value); any other entry is left untouched (a
non-string name compares unequal to the string without failing). -/
def castParam (p : Value) : Option Value :=
  match p with
  | .vdict d =>
      match lookupD d "name" with
      | some (.vstr nm) =>
          if nm = "openTypeOS2Type" then
            match lookupD d "value" with
            | some (.vlist vs) =>
                (mapOpt (fun x => (intVal x).map Value.vint) vs).map
                  (fun ns => Value.vdict (setKeyD d "value" (.vlist ns)))
            | some _ => none
            | none => none
          else some p
      | some _ => some p
      | none => none
  | _ => none

/-- casting.py cast_custom_data: iterate data["customParameters"]
(KeyError when absent) and rewrite each openTypeOS2Type entry in place. -/
def cast_custom_data (data : Dict) : Option Dict :=
  match lookupD data "customParameters" with
  | some (.vlist params) =>
      (mapOpt castParam params).map
        (fun ps => setKeyD data "customParameters" (.vlist ps))
  | some _ => none
  | none => none

/-! ### Dictionary lemmas -/

theorem lookupD_setKeyD_self (d : Dict) (k : String) (v : Value) :
    lookupD (setKeyD d k v) k = some v := by
  induction d with
  | nil => simp [setKeyD, lookupD]
  | cons e rest ih =>
      obtain ⟨k1, v1⟩ := e
      by_cases h : k1 = k <;> simp [setKeyD, lookupD, h, ih]

theorem lookupD_setKeyD_ne (d : Dict) (k k' : String) (v : Value) (h : k ≠ k') :
    lookupD (setKeyD d k v) k' = lookupD d k' := by
  induction d with
  | nil => simp [setKeyD, lookupD, h]
  | cons e rest ih =>
      obtain ⟨k1, v1⟩ := e
      by_cases h1 : k1 = k
      · subst h1; simp [setKeyD, lookupD, h]
      · simp [setKeyD, lookupD, h1, ih]

/-! ### Step lemmas for the caster -/

theorem cast_data_nil (data : Dict) : cast_data data [] = some data := by
  rw [cast_data.eq_def]

theorem cast_data_cons (data : Dict) (key : String) (ct : SchemaNode) (rest : Schema) :
    cast_data data ((key, ct) :: rest) =
      match castStep data key ct with
      | some data2 => cast_data data2 rest
      | none => none := by
  rw [cast_data.eq_def]

theorem castStep_absent_lookup {data : Dict} {key : String} {ct : SchemaNode} {d2 : Dict}
    (h : lookupD data key = none) (h2 : castStep data key ct = some d2) :
    lookupD d2 key = DEFAULTS key := by
  rw [castStep.eq_def, h] at h2
  cases hd : DEFAULTS key <;> rw [hd] at h2 <;>
    simp only [Option.some.injEq] at h2 <;> subst h2
  · exact h
  · exact lookupD_setKeyD_self data key _

theorem castStep_absent_isSome {data : Dict} {key : String} (ct : SchemaNode)
    (h : lookupD data key = none) : (castStep data key ct).isSome := by
  rw [castStep.eq_def, h]
  cases DEFAULTS key <;> simp

theorem castStep_present_conv {data : Dict} {key : String} {v : Value}
    (f : Value → Option Value) (h : lookupD data key = some v) :
    castStep data key (.conv f) = (f v).map (fun v2 => setKeyD data key v2) := by
  rw [castStep.eq_def, h]

theorem castStep_present_sub_vlist {data : Dict} {key : String} {items : List Value}
    (s : Schema) (h : lookupD data key = some (.vlist items)) :
    castStep data key (.sub s) =
      (cast_list s items).map (fun items2 => setKeyD data key (.vlist items2)) := by
  rw [castStep.eq_def, h]

theorem castStep_frame {data : Dict} {key : String} {ct : SchemaNode} {d2 : Dict}
    (h : castStep data key ct = some d2) (k : String) (hk : key ≠ k) :
    lookupD d2 k = lookupD data k := by
  rw [castStep.eq_def] at h
  cases hl : lookupD data key <;> rw [hl] at h
  · cases hd : DEFAULTS key <;> rw [hd] at h <;>
      simp only [Option.some.injEq] at h <;> subst h
    · rfl
    · exact lookupD_setKeyD_ne data key k _ hk
  case some v =>
    cases ct with
    | conv f =>
        simp only [Option.map_eq_some'] at h
        obtain ⟨v2, _, rfl⟩ := h
        exact lookupD_setKeyD_ne data key k _ hk
    | sub s =>
        cases v <;> try cases h
        case vlist items =>
          simp only [Option.map_eq_some'] at h
          obtain ⟨items2, _, rfl⟩ := h
          exact lookupD_setKeyD_ne data key k _ hk

theorem cast_list_nil (s : Schema) : cast_list s [] = some [] := by
  rw [cast_list.eq_def]

theorem cast_list_cons (s : Schema) (item : Value) (more : List Value) :
    cast_list s (item :: more) =
      match item with
      | .vdict d =>
          match cast_data d s with
          | some d2 => (cast_list s more).map (Value.vdict d2 :: ·)
          | none => none
      | _ => none := by
  rw [cast_list.eq_def]

/-! ### Global lemmas about cast_data -/

/-- Fields outside the schema are untouched: the traversal only ever
writes at schema keys. -/
theorem cast_data_frame : ∀ (ts : Schema) (data data' : Dict),
    cast_data data ts = some data' → ∀ k : String, (∀ e ∈ ts, e.1 ≠ k) →
    lookupD data' k = lookupD data k := by
  intro ts
  induction ts with
  | nil =>
      intro data data' h k _
      rw [cast_data_nil] at h
      cases h; rfl
  | cons e rest ih =>
      intro data data' h k hk
      obtain ⟨key, ct⟩ := e
      rw [cast_data_cons] at h
      cases hstep : castStep data key ct with
      | none => rw [hstep] at h; cases h
      | some d2 =>
          rw [hstep] at h
          have h1 := ih d2 data' h k (fun e he => hk e (List.mem_cons_of_mem _ he))
          have h2 := castStep_frame hstep k (hk (key, ct) (List.mem_cons_self _ _))
          rw [h1, h2]

/-- A field absent from the record ends up with its DEFAULTS entry (the
default value when there is one, still absent otherwise). -/
theorem cast_data_absent : ∀ (ts : Schema) (data data' : Dict) (k : String),
    (ts.map Prod.fst).Nodup → cast_data data ts = some data' →
    k ∈ ts.map Prod.fst → lookupD data k = none →
    lookupD data' k = DEFAULTS k := by
  intro ts
  induction ts with
  | nil => intro data data' k _ _ hmem _; simp at hmem
  | cons e rest ih =>
      intro data data' k hnd h hmem hlook
      obtain ⟨key, ct⟩ := e
      rw [cast_data_cons] at h
      cases hstep : castStep data key ct with
      | none => rw [hstep] at h; cases h
      | some d2 =>
          rw [hstep] at h
          simp only [List.map_cons, List.nodup_cons] at hnd
          rcases List.mem_cons.mp hmem with heq | hmem2
          · subst heq
            have hfr := cast_data_frame rest d2 data' h k
              (fun e he => fun hc => hnd.1 (hc ▸ List.mem_map_of_mem Prod.fst he))
            rw [hfr]
            exact castStep_absent_lookup hlook hstep
          · have hne : key ≠ k := fun hc => hnd.1 (hc ▸ hmem2)
            have h2 := castStep_frame hstep k hne
            exact ih d2 data' k hnd.2 h hmem2 (h2.trans hlook)

/-- A field present in the record is cast according to its own schema
node: a sub-schema recursively casts the record sequence, a converter
replaces the value by its output. -/
theorem cast_data_present : ∀ (ts : Schema) (data data' : Dict) (k : String)
    (ct : SchemaNode) (v : Value),
    (ts.map Prod.fst).Nodup → (k, ct) ∈ ts → cast_data data ts = some data' →
    lookupD data k = some v →
    (∀ s, ct = .sub s → ∃ items items2, v = .vlist items ∧
        cast_list s items = some items2 ∧
        lookupD data' k = some (.vlist items2)) ∧
    (∀ f, ct = .conv f → ∃ v2, f v = some v2 ∧ lookupD data' k = some v2) := by
  intro ts
  induction ts with
  | nil => intro data data' k ct v _ hmem _ _; simp at hmem
  | cons e rest ih =>
      intro data data' k ct v hnd hmem h hlook
      obtain ⟨key, ct'⟩ := e
      rw [cast_data_cons] at h
      cases hstep : castStep data key ct' with
      | none => rw [hstep] at h; cases h
      | some d2 =>
          rw [hstep] at h
          simp only [List.map_cons, List.nodup_cons] at hnd
          rcases List.mem_cons.mp hmem with heq | hmem2
          · injection heq with h1 h2
            subst h1; subst h2
            have hfr := cast_data_frame rest d2 data' h k
              (fun e he => fun hc => hnd.1 (hc ▸ List.mem_map_of_mem Prod.fst he))
            constructor
            · intro s hs
              subst hs
              rw [castStep.eq_def, hlook] at hstep
              cases v <;> try cases hstep
              case vlist items =>
                simp only [Option.map_eq_some'] at hstep
                obtain ⟨items2, hcl, rfl⟩ := hstep
                exact ⟨items, items2, rfl, hcl,
                  by rw [hfr]; exact lookupD_setKeyD_self data k _⟩
            · intro f hf
              subst hf
              rw [castStep_present_conv f hlook] at hstep
              simp only [Option.map_eq_some'] at hstep
              obtain ⟨v2, hfv, rfl⟩ := hstep
              exact ⟨v2, hfv, by rw [hfr]; exact lookupD_setKeyD_self data k _⟩
          · have hkmem : k ∈ rest.map Prod.fst := List.mem_map_of_mem Prod.fst hmem2
            have hne : key ≠ k := fun hc => hnd.1 (hc ▸ hkmem)
            have h2 := castStep_frame hstep k hne
            exact ih d2 data' k ct v hnd.2 hmem2 h (h2.trans hlook)

/-! ### Characterisation of the node pattern -/

/-- Declarative reading of the node regex under re.match prefix semantics:
two nonempty tokens over the class [-.e\d] separated by single spaces, a
segment type, an arbitrary unconsumed rest, with both tokens accepted by
num. -/
def NodeMatches (s : String) : Prop :=
  ∃ x y r : List Char, ∃ t : String,
    s.toList = x ++ ' ' :: (y ++ ' ' :: (t.toList ++ r)) ∧
    x ≠ [] ∧ (∀ c ∈ x, isNumChar c = true) ∧
    y ≠ [] ∧ (∀ c ∈ y, isNumChar c = true) ∧
    (t = "LINE" ∨ t = "CURVE" ∨ t = "OFFCURVE") ∧
    (numStr (String.mk x)).isSome ∧ (numStr (String.mk y)).isSome

theorem takeWhile_append_cons {p : Char → Bool} (x : List Char) (a : Char)
    (r : List Char) (hx : ∀ c ∈ x, p c = true) (ha : p a = false) :
    (x ++ a :: r).takeWhile p = x ∧ (x ++ a :: r).dropWhile p = a :: r := by
  induction x with
  | nil => simp [List.takeWhile_cons, List.dropWhile_cons, ha]
  | cons c t ih =>
      have hc : p c = true := hx c (by simp)
      have iht := ih (fun d hd => hx d (by simp [hd]))
      simp [List.takeWhile_cons, List.dropWhile_cons, hc, iht.1, iht.2]

theorem isPrefixOf_append (l r : List Char) : l.isPrefixOf (l ++ r) = true := by
  induction l with
  | nil => simp [List.isPrefixOf]
  | cons a t ih => simp [List.isPrefixOf, ih]

theorem matchType_decomp (t : String) (r : List Char)
    (ht : t = "LINE" ∨ t = "CURVE" ∨ t = "OFFCURVE") :
    matchType (t.toList ++ r) = some (t, r) := by
  rcases ht with rfl | rfl | rfl
  · simp only [matchType]
    rw [if_pos (by rw [isPrefixOf_append])]
    rw [show (4 : Nat) = "LINE".toList.length from rfl, List.drop_left]
  · have h1 : "LINE".toList.isPrefixOf ("CURVE".toList ++ r) = false := rfl
    simp only [matchType]
    rw [if_neg (by simp [h1]), if_pos (by rw [isPrefixOf_append])]
    rw [show (5 : Nat) = "CURVE".toList.length from rfl, List.drop_left]
  · have h1 : "LINE".toList.isPrefixOf ("OFFCURVE".toList ++ r) = false := rfl
    have h2 : "CURVE".toList.isPrefixOf ("OFFCURVE".toList ++ r) = false := rfl
    simp only [matchType]
    rw [if_neg (by simp [h1]), if_neg (by simp [h2]),
      if_pos (by rw [isPrefixOf_append])]
    rw [show (8 : Nat) = "OFFCURVE".toList.length from rfl, List.drop_left]

theorem matchType_inv (l : List Char) (t : String) (r : List Char)
    (h : matchType l = some (t, r)) :
    (t = "LINE" ∨ t = "CURVE" ∨ t = "OFFCURVE") ∧ l = t.toList ++ r := by
  unfold matchType at h
  split_ifs at h with h1 h2 h3
  · obtain ⟨s, hs⟩ := List.isPrefixOf_iff_prefix.mp h1
    injection h with h'
    injection h' with he1 he2
    subst he1
    refine ⟨Or.inl rfl, ?_⟩
    rw [← he2, ← hs, show (4 : Nat) = "LINE".toList.length from rfl, List.drop_left]
  · obtain ⟨s, hs⟩ := List.isPrefixOf_iff_prefix.mp h2
    injection h with h'
    injection h' with he1 he2
    subst he1
    refine ⟨Or.inr (Or.inl rfl), ?_⟩
    rw [← he2, ← hs, show (5 : Nat) = "CURVE".toList.length from rfl, List.drop_left]
  · obtain ⟨s, hs⟩ := List.isPrefixOf_iff_prefix.mp h3
    injection h with h'
    injection h' with he1 he2
    subst he1
    refine ⟨Or.inr (Or.inr rfl), ?_⟩
    rw [← he2, ← hs, show (8 : Nat) = "OFFCURVE".toList.length from rfl, List.drop_left]

/-- The node converter succeeds exactly on the strings matched by the
declarative pattern. -/
theorem node_isSome_iff (s : String) : (node (.vstr s)).isSome ↔ NodeMatches s := by
  constructor
  · intro h
    simp only [node, nodeStr] at h
    by_cases h1 : s.toList.takeWhile isNumChar = []
    · rw [if_pos h1] at h; simp at h
    rw [if_neg h1] at h
    cases hd1 : s.toList.dropWhile isNumChar with
    | nil => rw [hd1] at h; simp at h
    | cons a r2 =>
        rw [hd1] at h
        simp only [] at h
        by_cases ha : a = ' '
        case neg => rw [if_neg ha] at h; simp at h
        subst ha
        rw [if_pos rfl] at h
        by_cases h2 : r2.takeWhile isNumChar = []
        · rw [if_pos h2] at h; simp at h
        rw [if_neg h2] at h
        cases hd2 : r2.dropWhile isNumChar with
        | nil => rw [hd2] at h; simp at h
        | cons b r4 =>
            rw [hd2] at h
            simp only [] at h
            by_cases hb : b = ' '
            case neg => rw [if_neg hb] at h; simp at h
            subst hb
            rw [if_pos rfl] at h
            cases hmt : matchType r4 with
            | none => rw [hmt] at h; simp at h
            | some tr =>
                obtain ⟨t, r5⟩ := tr
                rw [hmt] at h
                simp only [] at h
                obtain ⟨htopts, hdec⟩ := matchType_inv r4 t r5 hmt
                cases hn1 : numStr (String.mk (s.toList.takeWhile isNumChar)) with
                | none =>
                    cases hn2 : numStr (String.mk (r2.takeWhile isNumChar)) with
                    | none => rw [hn1, hn2] at h; simp at h
                    | some n2 => rw [hn1, hn2] at h; simp at h
                | some n1 =>
                    cases hn2 : numStr (String.mk (r2.takeWhile isNumChar)) with
                    | none => rw [hn1, hn2] at h; simp at h
                    | some n2 =>
                        refine ⟨s.toList.takeWhile isNumChar,
                          r2.takeWhile isNumChar, r5, t, ?_, h1,
                          fun c hc => List.mem_takeWhile_imp hc, h2,
                          fun c hc => List.mem_takeWhile_imp hc, htopts,
                          by rw [hn1]; rfl, by rw [hn2]; rfl⟩
                        calc s.toList
                            = s.toList.takeWhile isNumChar ++
                              s.toList.dropWhile isNumChar :=
                              (List.takeWhile_append_dropWhile _ _).symm
                          _ = s.toList.takeWhile isNumChar ++ ' ' :: r2 := by
                              rw [hd1]
                          _ = s.toList.takeWhile isNumChar ++ ' ' ::
                              (r2.takeWhile isNumChar ++ r2.dropWhile isNumChar) := by
                              rw [List.takeWhile_append_dropWhile]
                          _ = s.toList.takeWhile isNumChar ++ ' ' ::
                              (r2.takeWhile isNumChar ++ ' ' :: r4) := by
                              rw [hd2]
                          _ = s.toList.takeWhile isNumChar ++ ' ' ::
                              (r2.takeWhile isNumChar ++ ' ' :: (t.toList ++ r5)) := by
                              rw [hdec]
  · rintro ⟨x, y, r, t, hs, hx0, hxall, hy0, hyall, ht, hnx, hny⟩
    obtain ⟨htk, hdr⟩ := takeWhile_append_cons x ' '
      (y ++ ' ' :: (t.toList ++ r)) hxall rfl
    obtain ⟨htk2, hdr2⟩ := takeWhile_append_cons y ' ' (t.toList ++ r) hyall rfl
    have hmt := matchType_decomp t r ht
    obtain ⟨n1, hn1⟩ := Option.isSome_iff_exists.mp hnx
    obtain ⟨n2, hn2⟩ := Option.isSome_iff_exists.mp hny
    simp only [node, nodeStr, hs]
    rw [htk, if_neg hx0, hdr]
    simp only []
    rw [if_pos trivial, htk2, if_neg hy0, hdr2]
    simp only []
    rw [if_pos trivial, hmt]
    simp only []
    rw [hn1, hn2]
    rfl

/-! ### Kerning grids -/

/-- A raw three-level kerning grid with string leaves. -/
abbrev RawGrid := List (String × List (String × List (String × String)))

/-- An int-leaf kerning grid. -/
abbrev IntGrid := List (String × List (String × List (String × Int)))

/-- Value encoding of one raw right-glyph binding. -/
def encodeRight (rp : String × String) : String × Value := (rp.1, .vstr rp.2)

/-- Value encoding of one raw left-glyph binding. -/
def encodeLeft (lp : String × List (String × String)) : String × Value :=
  (lp.1, .vdict (lp.2.map encodeRight))

/-- Value encoding of one raw master binding. -/
def encodeMaster (mp : String × List (String × List (String × String))) :
    String × Value :=
  (mp.1, .vdict (mp.2.map encodeLeft))

/-- Value encoding of a raw kerning grid. -/
def encodeGrid (g : RawGrid) : Value := .vdict (g.map encodeMaster)

/-- Value encoding of one int right-glyph binding. -/
def encodeIntRight (rp : String × Int) : String × Value := (rp.1, .vint rp.2)

/-- Value encoding of one int left-glyph binding. -/
def encodeIntLeft (lp : String × List (String × Int)) : String × Value :=
  (lp.1, .vdict (lp.2.map encodeIntRight))

/-- Value encoding of one int master binding. -/
def encodeIntMaster (mp : String × List (String × List (String × Int))) :
    String × Value :=
  (mp.1, .vdict (mp.2.map encodeIntLeft))

/-- Value encoding of an int kerning grid. -/
def encodeIntGrid (g : IntGrid) : Value := .vdict (g.map encodeIntMaster)

/-- Leafwise int parse of one right-glyph binding. -/
def castLeaf (rp : String × String) : Option (String × Int) :=
  (parseIntStr rp.2).map (fun n => (rp.1, n))

/-- Leafwise int parse of one left-glyph binding. -/
def castLeft (lp : String × List (String × String)) :
    Option (String × List (String × Int)) :=
  (mapOpt castLeaf lp.2).map (fun rs => (lp.1, rs))

/-- Leafwise int parse of one master binding. -/
def castMaster (mp : String × List (String × List (String × String))) :
    Option (String × List (String × List (String × Int))) :=
  (mapOpt castLeft mp.2).map (fun ls => (mp.1, ls))

/-- Leafwise int parse of a raw grid, keeping the key structure. -/
def castGrid (g : RawGrid) : Option IntGrid := mapOpt castMaster g

/-- Key structure of a three-level grid, every leaf value erased. -/
def gridShape (g : List (String × List (String × List (String × α)))) :
    List (String × List (String × List String)) :=
  g.map (fun mp => (mp.1, mp.2.map (fun lp => (lp.1, lp.2.map Prod.fst))))

theorem mapOpt_encode {F : β → Option δ} {E : α → β} {C : α → Option γ}
    {E2 : γ → δ} (hpt : ∀ a, F (E a) = (C a).map E2) (l : List α) :
    mapOpt F (l.map E) = (mapOpt C l).map (List.map E2) := by
  induction l with
  | nil => rfl
  | cons a tl ih =>
      simp only [List.map_cons, mapOpt, hpt a]
      cases hC : C a with
      | none => rfl
      | some c =>
          simp only [Option.map_some']
          rw [ih]
          cases mapOpt C tl <;> rfl

theorem mapOpt_shape {f : α → Option β} {sh : α → γ} {sh2 : β → γ}
    (hpt : ∀ a b, f a = some b → sh2 b = sh a) :
    ∀ l l2, mapOpt f l = some l2 → l2.map sh2 = l.map sh := by
  intro l
  induction l with
  | nil =>
      intro l2 h
      simp only [mapOpt, Option.some.injEq] at h
      subst h; rfl
  | cons a tl ih =>
      intro l2 h
      simp only [mapOpt] at h
      cases hf : f a <;> rw [hf] at h
      · cases h
      case some b =>
        cases hm : mapOpt f tl <;> rw [hm] at h
        · cases h
        case some bs =>
          simp only [Option.map_some', Option.some.injEq] at h
          subst h
          simp [List.map_cons, hpt a b hf, ih bs hm]

theorem mapOpt_isSome {f : α → Option β} :
    ∀ l : List α, (mapOpt f l).isSome ↔ ∀ a ∈ l, (f a).isSome := by
  intro l
  induction l with
  | nil => simp [mapOpt]
  | cons a tl ih =>
      simp only [mapOpt]
      cases hf : f a with
      | none => simp [hf]
      | some b =>
          cases hm : mapOpt f tl <;>
            simp [hf, hm, ← ih, List.forall_mem_cons]

theorem kerningRight_encode (rp : String × String) :
    kerningRight (encodeRight rp) = (castLeaf rp).map encodeIntRight := by
  cases hp : parseIntStr rp.2 <;>
    simp [kerningRight, encodeRight, castLeaf, encodeIntRight, intVal, hp]

theorem kerningLeft_encode (lp : String × List (String × String)) :
    kerningLeft (encodeLeft lp) = (castLeft lp).map encodeIntLeft := by
  simp only [kerningLeft, encodeLeft]
  rw [mapOpt_encode kerningRight_encode]
  cases h : mapOpt castLeaf lp.2 <;> simp [castLeft, encodeIntLeft, h]

theorem kerningMaster_encode (mp : String × List (String × List (String × String))) :
    kerningMaster (encodeMaster mp) = (castMaster mp).map encodeIntMaster := by
  simp only [kerningMaster, encodeMaster]
  rw [mapOpt_encode kerningLeft_encode]
  cases h : mapOpt castLeft mp.2 <;> simp [castMaster, encodeIntMaster, h]

theorem kerning_encode (g : RawGrid) :
    kerning (encodeGrid g) = (castGrid g).map encodeIntGrid := by
  simp only [kerning, encodeGrid]
  rw [mapOpt_encode kerningMaster_encode]
  cases h : mapOpt castMaster g <;> simp [castGrid, encodeIntGrid, h]

theorem castGrid_shape (g : RawGrid) (g2 : IntGrid) (h : castGrid g = some g2) :
    gridShape g2 = gridShape g := by
  have hleaf : ∀ (rp : String × String) (q : String × Int),
      castLeaf rp = some q → q.1 = rp.1 := by
    intro rp q hq
    simp only [castLeaf, Option.map_eq_some'] at hq
    obtain ⟨n, _, rfl⟩ := hq
    rfl
  have hleft : ∀ (lp : String × List (String × String))
      (q : String × List (String × Int)), castLeft lp = some q →
      (q.1, q.2.map Prod.fst) = (lp.1, lp.2.map Prod.fst) := by
    intro lp q hq
    simp only [castLeft, Option.map_eq_some'] at hq
    obtain ⟨rs, hrs, rfl⟩ := hq
    simp [mapOpt_shape hleaf lp.2 rs hrs]
  have hmaster : ∀ (mp : String × List (String × List (String × String)))
      (q : String × List (String × List (String × Int))), castMaster mp = some q →
      (q.1, q.2.map (fun lp => (lp.1, lp.2.map Prod.fst))) =
        (mp.1, mp.2.map (fun lp => (lp.1, lp.2.map Prod.fst))) := by
    intro mp q hq
    simp only [castMaster, Option.map_eq_some'] at hq
    obtain ⟨ls, hls, rfl⟩ := hq
    simp [mapOpt_shape hleft mp.2 ls hls]
  exact mapOpt_shape hmaster g g2 h

/-! ### Claim theorems -/

/-- Claim C1: a schema field that is absent from the data ends up bound to
its Defaults Table entry — the value 100 for interpolationWeight,
interpolationWidth, widthValue and weightValue — and stays absent, without
raising an error, for every other key; in particular an empty fontMaster
record has weightValue 100 after casting. -/
theorem claim_C1_defaults :
    (∀ (ts : Schema) (data data' : Dict) (k : String),
      (ts.map Prod.fst).Nodup → cast_data data ts = some data' →
      k ∈ ts.map Prod.fst → lookupD data k = none →
      lookupD data' k = DEFAULTS k) ∧
    (∀ (data : Dict) (k : String) (ct : SchemaNode),
      lookupD data k = none → (castStep data k ct).isSome) ∧
    DEFAULTS "weightValue" = some (.vint 100) ∧
    (∃ fm : Dict, cast_data [] fontMasterSchema = some fm ∧
      lookupD fm "weightValue" = some (.vint 100)) := by
  refine ⟨cast_data_absent, fun data k ct h => castStep_absent_isSome ct h, rfl, ?_⟩
  exact ⟨[("weightValue", .vint 100), ("widthValue", .vint 100)],
    by simp [cast_data, castStep, lookupD, DEFAULTS, setKeyD, fontMasterSchema], rfl⟩

/-- Closed instance of claim C1: a one-field schema fills in weightValue
100 on an empty record, and an absent field without default is no error. -/
theorem claim_C1_defaults_witness :
    lookupD [("weightValue", Value.vint 100)] "weightValue" = DEFAULTS "weightValue" ∧
    (castStep [] "ascender" (.conv pyint)).isSome :=
  ⟨claim_C1_defaults.1 [("weightValue", .conv pyint)] [] [("weightValue", .vint 100)]
      "weightValue" (by simp)
      (by simp [cast_data, castStep, lookupD, DEFAULTS, setKeyD]) (by simp) rfl,
    claim_C1_defaults.2.1 [] "ascender" (.conv pyint) rfl⟩

/-- Claim C2: a field present in the data is processed according to its
schema node — a sub-schema node recursively casts every record of the
sequence stored at the key, and a converter node replaces the stored value
by the converter output. -/
theorem claim_C2_present (ts : Schema) (data data' : Dict) (k : String)
    (ct : SchemaNode) (v : Value)
    (hnd : (ts.map Prod.fst).Nodup) (hmem : (k, ct) ∈ ts)
    (h : cast_data data ts = some data') (hlook : lookupD data k = some v) :
    (∀ s, ct = .sub s → ∃ items items2, v = .vlist items ∧
        cast_list s items = some items2 ∧
        lookupD data' k = some (.vlist items2)) ∧
    (∀ f, ct = .conv f → ∃ v2, f v = some v2 ∧ lookupD data' k = some v2) :=
  cast_data_present ts data data' k ct v hnd hmem h hlook

/-- Closed instance of claim C2: one sub-schema field and one converter
field of a concrete document. -/
theorem claim_C2_present_witness :
    (∃ items items2,
      Value.vlist [Value.vdict [("glyphname", Value.vstr "A")]] = Value.vlist items ∧
      cast_list [("glyphname", SchemaNode.conv pystr)] items = some items2 ∧
      lookupD [("glyphs", Value.vlist [Value.vdict [("glyphname", Value.vstr "A")]]),
        ("unitsPerEm", Value.vint 1000)] "glyphs" = some (.vlist items2)) ∧
    (∃ v2, pyint (.vstr "1000") = some v2 ∧
      lookupD [("glyphs", Value.vlist [Value.vdict [("glyphname", Value.vstr "A")]]),
        ("unitsPerEm", Value.vint 1000)] "unitsPerEm" = some v2) := by
  have hcast : cast_data
      [("glyphs", Value.vlist [Value.vdict [("glyphname", Value.vstr "A")]]),
        ("unitsPerEm", Value.vstr "1000")]
      [("glyphs", SchemaNode.sub [("glyphname", SchemaNode.conv pystr)]),
        ("unitsPerEm", SchemaNode.conv pyint)] =
      some [("glyphs", Value.vlist [Value.vdict [("glyphname", Value.vstr "A")]]),
        ("unitsPerEm", Value.vint 1000)] := by
    simp [cast_data, castStep, cast_list, lookupD, setKeyD, DEFAULTS,
      show pystr (.vstr "A") = some (.vstr "A") from rfl,
      show pyint (.vstr "1000") = some (.vint 1000) from rfl]
  refine ⟨(claim_C2_present _ _ _ "glyphs" _ _ (by simp) ?_ hcast rfl).1 _ rfl,
    (claim_C2_present _ _ _ "unitsPerEm" _ _ (by simp) ?_ hcast rfl).2 _ rfl⟩
  · simp
  · simp

/-- Claim C4: the vector converter of dimension 2 parses "{1, 2.5}" into
the two-element list [1, 2.5] with an int first element and a float second
element, and fails on "{1,2,3}" whose arity does not fit the
brace-delimited comma-separated pattern. -/
theorem claim_C4_vector_dim2 :
    vector (.vstr "{1, 2.5}") 2 = some (.vlist [.vint 1, .vfloat (mkRat 5 2)]) ∧
    vector (.vstr "{1,2,3}") 2 = none :=
  ⟨rfl, rfl⟩

/-- Claim C5: descender_val parses an integer string, returns the int when
it is strictly negative, and fails by assertion when the value is ≥ 0. -/
theorem claim_C5_descender (s : String) (n : Int) (h : parseIntStr s = some n) :
    (n < 0 → descender_val (.vstr s) = some (.vint n)) ∧
    (0 ≤ n → descender_val (.vstr s) = none) := by
  constructor <;> intro hn
  · simp only [descender_val, intVal, h, if_pos hn]
  · simp only [descender_val, intVal, h, if_neg (not_lt.mpr hn)]

/-- Closed instance of claim C5 at the spec inputs -10 and 10. -/
theorem claim_C5_descender_witness :
    descender_val (.vstr "-10") = some (.vint (-10)) ∧
    descender_val (.vstr "10") = none :=
  ⟨(claim_C5_descender "-10" (-10) rfl).1 (by norm_num),
    (claim_C5_descender "10" 10 rfl).2 (by norm_num)⟩

/-- Claim C6: version_minor parses an integer string, returns the int when
it lies in [0, 999], and fails by assertion outside that range. -/
theorem claim_C6_version_minor (s : String) (n : Int) (h : parseIntStr s = some n) :
    (0 ≤ n ∧ n ≤ 999 → version_minor (.vstr s) = some (.vint n)) ∧
    (n < 0 ∨ 999 < n → version_minor (.vstr s) = none) := by
  constructor <;> intro hn
  · simp only [version_minor, intVal, h, if_pos hn]
  · have : ¬(0 ≤ n ∧ n ≤ 999) := by omega
    simp only [version_minor, intVal, h, if_neg this]

/-- Closed instance of claim C6 at the spec inputs 500 and 1000. -/
theorem claim_C6_version_minor_witness :
    version_minor (.vstr "500") = some (.vint 500) ∧
    version_minor (.vstr "1000") = none :=
  ⟨(claim_C6_version_minor "500" 500 rfl).1 (by norm_num),
    (claim_C6_version_minor "1000" 1000 rfl).2 (by norm_num)⟩

/-- Claim C8: casting is not idempotent — there is a well-formed raw value
(a date string) whose schema converter glyphs_datetime succeeds once but
fails on its own output, since the converter expects a string. -/
theorem claim_C8_not_idempotent :
    ∃ v v2 : Value, glyphs_datetime v = some v2 ∧ glyphs_datetime v2 = none ∧
      ("date", SchemaNode.conv glyphs_datetime) ∈ get_type_structure :=
  ⟨.vstr "2014-01-01 12:30:05 +0000", .vdatetime ⟨2014, 1, 1, 12, 30, 5⟩,
    rfl, rfl, by simp [get_type_structure]⟩

/-- Claim C10: a key of the data that does not occur among the schema keys
is left unchanged by cast_data. -/
theorem claim_C10_frame (ts : Schema) (data data' : Dict) (k : String)
    (h : cast_data data ts = some data') (hk : k ∉ ts.map Prod.fst) :
    lookupD data' k = lookupD data k :=
  cast_data_frame ts data data' h k
    (fun _ he hc => hk (hc ▸ List.mem_map_of_mem Prod.fst he))

/-- Closed instance of claim C10: a non-schema key survives a cast that
rewrites its neighbour field. -/
theorem claim_C10_frame_witness :
    lookupD [("zzz", Value.vstr "keep"), ("unitsPerEm", Value.vint 1000)] "zzz" =
      lookupD [("zzz", Value.vstr "keep"), ("unitsPerEm", Value.vstr "1000")] "zzz" :=
  claim_C10_frame [("unitsPerEm", .conv pyint)]
    [("zzz", .vstr "keep"), ("unitsPerEm", .vstr "1000")]
    [("zzz", .vstr "keep"), ("unitsPerEm", .vint 1000)] "zzz"
    (by simp [cast_data, castStep, lookupD, setKeyD, DEFAULTS,
      show pyint (.vstr "1000") = some (.vint 1000) from rfl])
    (by simp)

/-- Claim C3: the node converter parses "X Y TYPE [SMOOTH]" with TYPE in
LINE, CURVE, OFFCURVE into the 4-tuple (x, y, type, smooth-or-None):
"100 200 LINE" gives (100, 200, LINE, None), "10.5 20 CURVE SMOOTH" gives
(10.5, 20, CURVE, SMOOTH), and it succeeds exactly on the strings matched
by the token pattern. -/
theorem claim_C3_node :
    node (.vstr "100 200 LINE") =
      some (.vlist [.vint 100, .vint 200, .vstr "LINE", .vnone]) ∧
    node (.vstr "10.5 20 CURVE SMOOTH") =
      some (.vlist [.vfloat (mkRat 21 2), .vint 20, .vstr "CURVE", .vstr "SMOOTH"]) ∧
    (∀ s : String, (node (.vstr s)).isSome ↔ NodeMatches s) :=
  ⟨rfl, rfl, node_isSome_iff⟩

/-- Closed instance of claim C3: the characterisation applied to a
concrete OFFCURVE line. -/
theorem claim_C3_node_witness : NodeMatches "1 2 OFFCURVE" :=
  (claim_C3_node.2.2 "1 2 OFFCURVE").mp (by rfl)

/-- Claim C7: the kerning converter rebuilds a three-level
master → left glyph → right glyph grid of string leaves with exactly the
same keys at every level and every leaf replaced by its int value, failing
exactly when some leaf is not an integer string; in particular the grid
m1/A/B "10" casts to m1/A/B 10. -/
theorem claim_C7_kerning :
    (∀ g : RawGrid, kerning (encodeGrid g) = (castGrid g).map encodeIntGrid) ∧
    (∀ (g : RawGrid) (g2 : IntGrid), castGrid g = some g2 →
      gridShape g2 = gridShape g) ∧
    (∀ g : RawGrid, (kerning (encodeGrid g)).isSome ↔
      ∀ mp ∈ g, ∀ lp ∈ mp.2, ∀ rp ∈ lp.2, (parseIntStr rp.2).isSome) ∧
    kerning (.vdict [("m1", .vdict [("A", .vdict [("B", .vstr "10")])])]) =
      some (.vdict [("m1", .vdict [("A", .vdict [("B", .vint 10)])])]) ∧
    kerning (.vdict [("m1", .vdict [("A", .vdict [("B", .vstr "x")])])]) = none := by
  refine ⟨kerning_encode, castGrid_shape, fun g => ?_, rfl, rfl⟩
  rw [kerning_encode g]
  simp [castGrid, Option.isSome_map', mapOpt_isSome, castMaster, castLeft, castLeaf]

/-- Closed instance of claim C7: shape preservation on a concrete grid. -/
theorem claim_C7_kerning_witness :
    gridShape [("m1", [("A", [("B", (10 : Int))])])] =
      gridShape [("m1", [("A", [("B", "10")])])] :=
  claim_C7_kerning.2.1 [("m1", [("A", [("B", "10")])])]
    [("m1", [("A", [("B", (10 : Int))])])] rfl

/-- Claim C9: cast_custom_data rewrites the customParameters sequence
entrywise — an entry named openTypeOS2Type has its sequence-of-strings
value replaced by the corresponding sequence of ints, and every entry with
any other name is left unchanged. -/
theorem claim_C9_custom_data :
    (∀ (data : Dict) (params : List Value),
      lookupD data "customParameters" = some (.vlist params) →
      cast_custom_data data = (mapOpt castParam params).map
        (fun ps => setKeyD data "customParameters" (.vlist ps))) ∧
    (∀ (d : List (String × Value)) (nm : String),
      lookupD d "name" = some (.vstr nm) → nm ≠ "openTypeOS2Type" →
      castParam (.vdict d) = some (.vdict d)) ∧
    (∀ (d : List (String × Value)) (vs : List Value),
      lookupD d "name" = some (.vstr "openTypeOS2Type") →
      lookupD d "value" = some (.vlist vs) →
      castParam (.vdict d) =
        (mapOpt (fun x => (intVal x).map Value.vint) vs).map
          (fun ns => Value.vdict (setKeyD d "value" (.vlist ns)))) := by
  refine ⟨?_, ?_, ?_⟩
  · intro data params h
    simp only [cast_custom_data, h]
  · intro d nm h hne
    simp only [castParam, h, if_neg hne]
  · intro d vs h hv
    simp only [castParam, h, hv]
    rw [if_pos trivial]

/-- Closed instance of claim C9: a two-entry customParameters sequence
where the openTypeOS2Type entry is rewritten and the other entry kept. -/
theorem claim_C9_custom_data_witness :
    cast_custom_data
      [("customParameters", Value.vlist
        [Value.vdict [("name", Value.vstr "openTypeOS2Type"),
          ("value", Value.vlist [Value.vstr "2", Value.vstr "4"])],
         Value.vdict [("name", Value.vstr "other"), ("value", Value.vstr "z")]])] =
      some [("customParameters", Value.vlist
        [Value.vdict [("name", Value.vstr "openTypeOS2Type"),
          ("value", Value.vlist [Value.vint 2, Value.vint 4])],
         Value.vdict [("name", Value.vstr "other"), ("value", Value.vstr "z")]])] ∧
    castParam (.vdict [("name", Value.vstr "other"), ("value", Value.vstr "z")]) =
      some (.vdict [("name", Value.vstr "other"), ("value", Value.vstr "z")]) ∧
    castParam (.vdict [("name", Value.vstr "openTypeOS2Type"),
        ("value", Value.vlist [Value.vstr "2", Value.vstr "4"])]) =
      some (.vdict [("name", Value.vstr "openTypeOS2Type"),
        ("value", Value.vlist [Value.vint 2, Value.vint 4])]) :=
  ⟨(claim_C9_custom_data.1
      [("customParameters", Value.vlist
        [Value.vdict [("name", Value.vstr "openTypeOS2Type"),
          ("value", Value.vlist [Value.vstr "2", Value.vstr "4"])],
         Value.vdict [("name", Value.vstr "other"), ("value", Value.vstr "z")]])]
      [Value.vdict [("name", Value.vstr "openTypeOS2Type"),
        ("value", Value.vlist [Value.vstr "2", Value.vstr "4"])],
       Value.vdict [("name", Value.vstr "other"), ("value", Value.vstr "z")]]
      rfl).trans rfl,
    claim_C9_custom_data.2.1
      [("name", Value.vstr "other"), ("value", Value.vstr "z")] "other" rfl
      (by decide),
    (claim_C9_custom_data.2.2
      [("name", Value.vstr "openTypeOS2Type"),
        ("value", Value.vlist [Value.vstr "2", Value.vstr "4"])]
      [Value.vstr "2", Value.vstr "4"] rfl rfl).trans rfl⟩

end Glyphs
